import Mathlib

/-!
Verification of the twilight-classification scheduler and bounded image store
of the allsky repository. Python source functions are shallowly embedded as
Lean definitions: timestamps on the comparison timeline are `Int`, fallible
steps return `Option`/`Except`, and stateful classes are explicit state
passing. Section order follows the source modules:
`allsky_complete.py` (AstronomyCalculator), `image_manager.py`
(StorageManager.cleanup_old_files, ScheduledCapture._should_capture,
ImageManager._load_metadata), `weather_manager.py` (WeatherManager), and
`exceptions.py` (retry_on_failure).
-/

namespace Allsky

/-- Lighting periods used by the keys of camera.default_settings. -/
inductive Period where
  | night
  | astronomical
  | nautical
  | civil
  | day
deriving DecidableEq, Repr

/-- Result dict of astral.sun.sun: the eight named boundary instants.
Each field is an `Option Int` on the comparison timeline; a missing key
models a KeyError being raised when the dict entry is accessed. -/
structure SunDict where
  astronomical_dawn : Option Int
  nautical_dawn : Option Int
  civil_dawn : Option Int
  sunrise : Option Int
  sunset : Option Int
  civil_dusk : Option Int
  nautical_dusk : Option Int
  astronomical_dusk : Option Int
deriving DecidableEq, Repr

/-- Python chained comparison a <= t < b with short-circuit evaluation:
the left bound is read first; only when a <= t holds is the right bound
read. `none` models the comparison raising. -/
def chainLeLt (a? : Option Int) (b? : Option Int) (t : Int) : Option Bool :=
  a?.bind fun a => if a ≤ t then b?.map (fun b => decide (t < b)) else some false

/-- Python short-circuit or over possibly-raising Bool computations. -/
def orSC (x : Option Bool) (y : Unit → Option Bool) : Option Bool :=
  x.bind fun b => if b then some true else y ()

/-- Condition of the night branch:
current_time < astronomical_dawn or current_time >= astronomical_dusk. -/
def condNight (s : SunDict) (t : Int) : Option Bool :=
  orSC (s.astronomical_dawn.map (fun ad => decide (t < ad)))
    (fun _ => s.astronomical_dusk.map (fun adk => decide (adk ≤ t)))

/-- Condition of the astronomical branch:
astronomical_dawn <= t < nautical_dawn or nautical_dusk <= t < astronomical_dusk. -/
def condAstronomical (s : SunDict) (t : Int) : Option Bool :=
  orSC (chainLeLt s.astronomical_dawn s.nautical_dawn t)
    (fun _ => chainLeLt s.nautical_dusk s.astronomical_dusk t)

/-- Condition of the nautical branch:
nautical_dawn <= t < civil_dawn or civil_dusk <= t < nautical_dusk. -/
def condNautical (s : SunDict) (t : Int) : Option Bool :=
  orSC (chainLeLt s.nautical_dawn s.civil_dawn t)
    (fun _ => chainLeLt s.civil_dusk s.nautical_dusk t)

/-- Condition of the civil branch:
civil_dawn <= t < sunrise or sunset <= t < civil_dusk. -/
def condCivil (s : SunDict) (t : Int) : Option Bool :=
  orSC (chainLeLt s.civil_dawn s.sunrise t)
    (fun _ => chainLeLt s.sunset s.civil_dusk t)

/-- Condition of the day branch: sunrise <= t < sunset. -/
def condDay (s : SunDict) (t : Int) : Option Bool :=
  chainLeLt s.sunrise s.sunset t

/-- The time_periods list of calculate_exposure_settings, in source order. -/
def time_periods (s : SunDict) (t : Int) : List (Period × Option Bool) :=
  [(Period.night, condNight s t),
   (Period.astronomical, condAstronomical s t),
   (Period.nautical, condNautical s t),
   (Period.civil, condCivil s t),
   (Period.day, condDay s t)]

/-- The for-loop over time_periods: the first condition evaluating to True
wins; a raising condition (`none`) is caught and skipped; an exhausted loop
yields `none` and the caller falls through to the final night default. -/
def run_time_periods : List (Period × Option Bool) → Option Period
  | [] => none
  | (p, c) :: rest =>
    match c with
    | some true => some p
    | _ => run_time_periods rest

/-- Period ultimately selected by calculate_exposure_settings given the
sun-data lookup result: None sun data yields night, otherwise the first
matching branch, with night as the fall-through default. -/
def classify_exposure (s? : Option SunDict) (t : Int) : Period :=
  match s? with
  | none => Period.night
  | some s => (run_time_periods (time_periods s t)).getD Period.night

/-- Body of calculate_exposure_settings after the sun-data lookup, lines
155-177: `cfg` models config_manager.get of camera.default_settings for a
period, returning its (exposure, gain) pair. -/
def exposure_settings_from (cfg : Period → Int × Int) (s? : Option SunDict)
    (t : Int) : Int × Int :=
  match s? with
  | none => cfg Period.night
  | some s =>
    match run_time_periods (time_periods s t) with
    | some p => cfg p
    | none => cfg Period.night

/-- Calendar date extracted by datetime.date(). -/
structure Date where
  year : Nat
  month : Nat
  day : Nat
deriving DecidableEq, Repr

/-- Wall-clock datetime (naive, second precision as produced by the
source's datetime values). -/
structure DateTime where
  year : Nat
  month : Nat
  day : Nat
  hour : Nat
  minute : Nat
  second : Nat
deriving DecidableEq, Repr

/-- Calendar date of a datetime, as datetime.date(). -/
def dateOf (t : DateTime) : Date :=
  ⟨t.year, t.month, t.day⟩

/-- Two-digit zero padding used by isoformat. -/
def pad2 (n : Nat) : String :=
  if n < 10 then "0" ++ toString n else toString n

/-- Python datetime.isoformat() for a naive, whole-second datetime:
YYYY-MM-DDTHH:MM:SS. -/
def isoformat (t : DateTime) : String :=
  toString t.year ++ "-" ++ pad2 t.month ++ "-" ++ pad2 t.day ++ "T" ++
    pad2 t.hour ++ ":" ++ pad2 t.minute ++ ":" ++ pad2 t.second

/-- Characters of a string before the first occurrence of `c`. -/
def takeUntilChar (c : Char) : List Char → List Char
  | [] => []
  | x :: xs => if x = c then [] else x :: takeUntilChar c xs

/-- Split a character list on a separator character. -/
def splitOnChar (c : Char) : List Char → List (List Char)
  | [] => [[]]
  | x :: xs =>
    if x = c then [] :: splitOnChar c xs
    else
      match splitOnChar c xs with
      | [] => [[x]]
      | h :: t => (x :: h) :: t

/-- Decimal value of a digit character. -/
def digitVal? (c : Char) : Option Nat :=
  if c = '0' then some 0
  else if c = '1' then some 1
  else if c = '2' then some 2
  else if c = '3' then some 3
  else if c = '4' then some 4
  else if c = '5' then some 5
  else if c = '6' then some 6
  else if c = '7' then some 7
  else if c = '8' then some 8
  else if c = '9' then some 9
  else none

/-- Accumulating decimal parse of a digit list. -/
def digitsToNatAux : List Char → Nat → Option Nat
  | [], acc => some acc
  | c :: cs, acc => (digitVal? c).bind fun d => digitsToNatAux cs (acc * 10 + d)

/-- Decimal parse of a nonempty all-digit character list. -/
def digitsToNat? : List Char → Option Nat
  | [] => none
  | c :: cs => digitsToNatAux (c :: cs) 0

/-- Python datetime.fromisoformat(s).date(): parse the date part of an ISO
string; `none` models ValueError being raised. -/
def fromisoformatDate (s : String) : Option Date :=
  match splitOnChar '-' (takeUntilChar 'T' s.data) with
  | [y, m, d] =>
    (digitsToNat? y).bind fun yn =>
      (digitsToNat? m).bind fun mn =>
        (digitsToNat? d).bind fun dn =>
          if 1 ≤ mn ∧ mn ≤ 12 ∧ 1 ≤ dn ∧ dn ≤ 31 then some ⟨yn, mn, dn⟩
          else none
  | _ => none

/-- Station location as held in AstronomyCalculator.city (astral
LocationInfo): name, region, timezone, latitude, longitude. -/
structure Location where
  name : String
  region : String
  timezone : String
  latitude : Int
  longitude : Int
deriving DecidableEq, Repr

/-- Mutable state of an AstronomyCalculator instance: the current
LocationInfo and the lru_cache memo table of get_sun_data. -/
structure AstroState where
  city : Location
  cache : List (String × Option SunDict)
deriving DecidableEq, Repr

/-- AstronomyCalculator.get_sun_data (lines 138-147) together with its
@lru_cache(maxsize=1440) decorator: the memo table is an association list
keyed by the exact date_str argument (the 1440-entry eviction bound is
never reached in the scenarios considered here). The external ephemeris
astral.sun.sun is the abstract argument `ephem`; a raising ephemeris or a
raising fromisoformat is caught and the cached result is None, which
lru_cache memoizes like any other return value. The Nat in the result
counts invocations of the external ephemeris performed by this call. -/
def get_sun_data (ephem : Location → Date → Option SunDict) (st : AstroState)
    (date_str : String) : Option SunDict × AstroState × Nat :=
  match st.cache.lookup date_str with
  | some v => (v, st, 0)
  | none =>
    match fromisoformatDate date_str with
    | none => (none, ⟨st.city, (date_str, none) :: st.cache⟩, 0)
    | some d =>
      let v := ephem st.city d
      (v, ⟨st.city, (date_str, v) :: st.cache⟩, 1)

/-- AstronomyCalculator.update_location_info (lines 126-136): rebuilds
self.city from the station configuration; the lru_cache memo table of
get_sun_data is left untouched (the source has no cache_clear call). -/
def update_location_info (st : AstroState) (station : Location) : AstroState :=
  ⟨station, st.cache⟩

/-- AstronomyCalculator.calculate_exposure_settings (lines 149-177): the
sun-data lookup is keyed by current_time.isoformat(), the full timestamp
string. `toTl` places a wall-clock datetime on the comparison timeline
shared with the boundary instants; `cfg` models config_manager.get of the
per-period camera.default_settings. -/
def calculate_exposure_settings (ephem : Location → Date → Option SunDict)
    (toTl : DateTime → Int) (cfg : Period → Int × Int) (st : AstroState)
    (current_time : DateTime) : (Int × Int) × AstroState × Nat :=
  let r := get_sun_data ephem st (isoformat current_time)
  (exposure_settings_from cfg r.1 (toTl current_time), r.2.1, r.2.2)

/-- Sample location used in concrete scenarios. -/
def locA : Location :=
  ⟨"Shanghai", "China", "Asia/Shanghai", 31, 121⟩

/-- Second sample location used in concrete scenarios. -/
def locB : Location :=
  ⟨"Beijing", "China", "Asia/Beijing", 39, 116⟩

/-- Sample boundary set used in concrete scenarios. -/
def sampleSun : SunDict :=
  ⟨some 0, some 10, some 20, some 30, some 40, some 50, some 60, some 70⟩

/-- Location-independent ephemeris used in the C1 scenario. -/
def ephemConst : Location → Date → Option SunDict :=
  fun _ _ => some sampleSun

/-- Constant settings table used in concrete scenarios. -/
def cfgConst : Period → Int × Int :=
  fun _ => (100, 5)

/-- Trivial timeline placement used in concrete scenarios. -/
def toTlZero : DateTime → Int :=
  fun _ => 0

/-- Calculator state after the 10:00 lookup of the C1 scenario. -/
def c1_state1 : AstroState :=
  (calculate_exposure_settings ephemConst toTlZero cfgConst ⟨locA, []⟩
    ⟨2024, 1, 1, 10, 0, 0⟩).2.1

/-- Location-sensitive ephemeris used in the C4 scenario: the boundary
set depends on the latitude. -/
def ephemLoc : Location → Date → Option SunDict :=
  fun loc _ =>
    some ⟨some loc.latitude, none, none, none, none, none, none, none⟩

/-- Calculator state after caching the 2024-01-01 lookup under locA in
the C4 scenario. -/
def c4_state1 : AstroState :=
  (get_sun_data ephemLoc ⟨locA, []⟩ (isoformat ⟨2024, 1, 1, 0, 0, 0⟩)).2.1

/-- Calculator state after the location switch to locB in the C4
scenario (update_location_info leaves the cache in place). -/
def c4_state2 : AstroState :=
  update_location_info c4_state1 locB

/-- Image file as seen by StorageManager.cleanup_old_files: its path and
its modification time os.path.getmtime. -/
structure FileRec where
  path : String
  mtime : Int
deriving DecidableEq, Repr

/-- Disposition of a file selected for eviction. -/
inductive Action where
  | archive
  | delete
deriving DecidableEq, Repr

/-- Sort key of cleanup_old_files, line 138: os.path.getmtime only. -/
def mtimeLe (a b : FileRec) : Bool :=
  decide (a.mtime ≤ b.mtime)

/-- StorageManager.cleanup_old_files (lines 126-165) as an eviction plan:
`files` is the recursive glob listing in the enumeration order the
filesystem returned it, `max_stored` the configured ceiling,
`archive_enabled` the archival flag. Python list.sort is stable, modelled
by List.mergeSort. The plan returns the selected files with their
annotated action; the per-file move/delete I/O and its per-entry error
isolation happen downstream of the plan. -/
def cleanup_old_files (files : List FileRec) (max_stored : Nat)
    (archive_enabled : Bool) : List (FileRec × Action) :=
  if files.length ≤ max_stored then []
  else
    let sorted := files.mergeSort mtimeLe
    let old_files := sorted.take (files.length - max_stored)
    old_files.map fun f =>
      (f, if archive_enabled then Action.archive else Action.delete)

/-- ScheduledCapture._should_capture body given the local wall-clock hour
(lines 289-305): the night_only window check, the weather_check stub, and
the final True. -/
def should_capture_checks (night_only weather_check : Bool) (hour : Nat) :
    Bool :=
  if night_only && !(decide (18 ≤ hour) || decide (hour ≤ 6)) then false
  else true

/-- ScheduledCapture._should_capture (lines 287-309): the body runs under
a try/except whose handler returns True (capture proceeds on error).
`hour?` is the result of reading the current local hour; `.error` models
the body raising. -/
def should_capture (night_only weather_check : Bool)
    (hour? : Except String Nat) : Bool :=
  match hour? with
  | Except.error _ => true
  | Except.ok h => should_capture_checks night_only weather_check h

/-- Cache state of a WeatherManager instance: self.cache (mapping from the
formatted coordinate key to the last weather dict, insertion order kept as
in a Python dict) and self.last_update (None until the first successful
fetch). Weather dict values are abstract (`W`). -/
structure WeatherState (W : Type) where
  cache : List (String × W)
  last_update : Option Int
deriving Repr

/-- WeatherManager._is_cache_valid (lines 197-203): False when
last_update is unset or the cache is empty, else the age test
time.time() - last_update < cache_duration. -/
def is_cache_valid {W : Type} (st : WeatherState W) (now : Int)
    (cache_duration : Int) : Bool :=
  match st.last_update with
  | none => false
  | some lu => !st.cache.isEmpty && decide (now - lu < cache_duration)

/-- Insert-or-replace for the cache dict self.cache[key] = value. -/
def dictInsert {W : Type} (l : List (String × W)) (key : String) (v : W) :
    List (String × W) :=
  match l with
  | [] => [(key, v)]
  | (k, w) :: rest =>
    if k = key then (k, v) :: rest else (k, w) :: dictInsert rest key v

/-- Python list(dict.values())[-1]: the most recently inserted value. -/
def lastValue {W : Type} : List (String × W) → Option W
  | [] => none
  | [(_, w)] => some w
  | _ :: rest => lastValue rest

/-- WeatherManager.get_weather_data (lines 205-253) for an
already-resolved coordinate key: a valid-cache hit returns the cached
entry without fetching; otherwise the provider fetch runs once and, on
success, replaces the entry and last_update; on failure the last cached
value (or the default dict) is returned with the state unchanged. The Nat
counts provider-fetch invocations by this call. -/
def get_weather_data {W : Type} (fetch : Unit → Except String W)
    (default_data : W) (cache_duration : Int) (st : WeatherState W)
    (now : Int) (key : String) : W × WeatherState W × Nat :=
  if is_cache_valid st now cache_duration && (st.cache.lookup key).isSome then
    ((st.cache.lookup key).getD default_data, st, 0)
  else
    match fetch () with
    | Except.ok w => (w, ⟨dictInsert st.cache key w, some now⟩, 1)
    | Except.error _ =>
      match lastValue st.cache with
      | some w => (w, st, 1)
      | none => (default_data, st, 1)

/-- retry_on_failure of exceptions.py (lines 128-171), unrolled from the
attempt numbered `attempt` with `remaining` further attempts allowed.
`op k` is the outcome of invoking the wrapped operation on attempt k
(0-based). Returns the final outcome, the number of invocations made, and
the list of sleep delays (seconds, exact rationals) between consecutive
attempts. -/
def retryAux {E A : Type} (op : Nat → Except E A) (delay : ℚ)
    (exponential_backoff : Bool) : Nat → Nat → Except E A × Nat × List ℚ
  | attempt, remaining =>
    match op attempt with
    | Except.ok a => (Except.ok a, 1, [])
    | Except.error e =>
      match remaining with
      | 0 => (Except.error e, 1, [])
      | r + 1 =>
        let wait_time :=
          if exponential_backoff then delay * 2 ^ attempt else delay
        let rest := retryAux op delay exponential_backoff (attempt + 1) r
        (rest.1, rest.2.1 + 1, wait_time :: rest.2.2)

/-- retry_on_failure(max_retries, delay, exponential_backoff) applied to
an operation: the loop `for attempt in range(max_retries + 1)` starting at
attempt 0, re-raising the last failure after exhaustion. -/
def retry_on_failure {E A : Type} (op : Nat → Except E A) (max_retries : Nat)
    (delay : ℚ) (exponential_backoff : Bool) : Except E A × Nat × List ℚ :=
  retryAux op delay exponential_backoff 0 max_retries

/-- Persisted metadata record fields other than the path key, kept
abstract. -/
structure MetaRec where
  capture_time : Int
  payload : String
deriving DecidableEq, Repr

/-- ImageManager._load_metadata (lines 391-407): `index_file_exists` is
the os.path.exists check on metadata.json; `parsed?` the result of
json.load plus the per-record from_dict conversions (`.error` models any
exception, after which the handler resets the cache to empty);
`file_exists` the os.path.exists check on each record's image path. The
result is the rebuilt metadata_cache; the function is total (the source
never lets an exception escape: the whole body is wrapped in try/except
and @safe_execute). -/
def load_metadata (index_file_exists : Bool)
    (parsed? : Except String (List (String × MetaRec)))
    (file_exists : String → Bool) : List (String × MetaRec) :=
  if !index_file_exists then []
  else
    match parsed? with
    | Except.error _ => []
    | Except.ok data => data.filter fun r => file_exists r.1

/-- Transitivity of the eviction sort key. -/
theorem mtimeLe_trans (a b c : FileRec) (h1 : mtimeLe a b) (h2 : mtimeLe b c) :
    mtimeLe a c := by
  simp only [mtimeLe, decide_eq_true_eq] at *
  omega

/-- Totality of the eviction sort key. -/
theorem mtimeLe_total (a b : FileRec) : mtimeLe a b || mtimeLe b a := by
  simp only [mtimeLe]
  by_cases h : a.mtime ≤ b.mtime
  · simp [h]
  · simp [h]
    omega

/-- C1: the sun-data memoization is NOT at calendar-day granularity. Two
calls of calculate_exposure_settings at 10:00 and 11:00 of the same
calendar date 2024-01-01 each invoke the external ephemeris (one
invocation per call, two in total), because the memo key is the full
isoformat timestamp string; day-granularity memoization as claimed would
invoke it at most once. Both calls do return the same boundary set. -/
theorem C1_same_day_lookups_invoke_ephemeris_twice :
    dateOf ⟨2024, 1, 1, 10, 0, 0⟩ = dateOf ⟨2024, 1, 1, 11, 0, 0⟩ ∧
    (calculate_exposure_settings ephemConst toTlZero cfgConst ⟨locA, []⟩
      ⟨2024, 1, 1, 10, 0, 0⟩).2.2 = 1 ∧
    (calculate_exposure_settings ephemConst toTlZero cfgConst c1_state1
      ⟨2024, 1, 1, 11, 0, 0⟩).2.2 = 1 ∧
    (get_sun_data ephemConst ⟨locA, []⟩
      (isoformat ⟨2024, 1, 1, 10, 0, 0⟩)).1 =
      (get_sun_data ephemConst c1_state1
        (isoformat ⟨2024, 1, 1, 11, 0, 0⟩)).1 := by
  decide

/-- C4: updating the station location does not invalidate the sun-data
cache. A boundary set computed and cached under location locA is returned
unchanged for the same lookup key after the location is updated to locB:
the returned set is the stale locA one, differs from what the ephemeris
yields at locB, and the ephemeris is not re-invoked (invocation count 0 on
the second lookup). -/
theorem C4_location_change_returns_stale_cache :
    (get_sun_data ephemLoc c4_state2 (isoformat ⟨2024, 1, 1, 0, 0, 0⟩)).1 =
      (get_sun_data ephemLoc ⟨locA, []⟩
        (isoformat ⟨2024, 1, 1, 0, 0, 0⟩)).1 ∧
    (get_sun_data ephemLoc c4_state2 (isoformat ⟨2024, 1, 1, 0, 0, 0⟩)).1 ≠
      ephemLoc locB ⟨2024, 1, 1⟩ ∧
    (get_sun_data ephemLoc c4_state2 (isoformat ⟨2024, 1, 1, 0, 0, 0⟩)).2.2 =
      0 := by
  decide

/-- C2: the period classification is total and never raises: for every
configuration, sun-data lookup result and timestamp, the exposure
computation returns the parameter pair of the (unique) classified period,
and when the boundary data is unavailable (None) or no interval condition
evaluates to True, the classified period is Night. -/
theorem C2_exposure_total_with_night_fallback
    (cfg : Period → Int × Int) (s? : Option SunDict) (t : Int) :
    exposure_settings_from cfg s? t = cfg (classify_exposure s? t) ∧
    (s? = none → classify_exposure s? t = Period.night) ∧
    (∀ s, s? = some s → run_time_periods (time_periods s t) = none →
      classify_exposure s? t = Period.night) := by
  refine ⟨?_, ?_, ?_⟩
  · cases s? with
    | none => rfl
    | some s =>
      cases hr : run_time_periods (time_periods s t) with
      | none => simp [exposure_settings_from, classify_exposure, hr]
      | some p => simp [exposure_settings_from, classify_exposure, hr]
  · intro h
    subst h
    rfl
  · intro s hs hr
    subst hs
    show (run_time_periods (time_periods s t)).getD Period.night = Period.night
    rw [hr]
    rfl

/-- Witness for C2 at a concrete configuration, with the unavailable
(None) sun-data hypothesis discharged. -/
theorem C2_exposure_total_with_night_fallback_witness :
    exposure_settings_from
      (fun p => if p = Period.night then ((7 : Int), (3 : Int)) else (0, 0))
      none 0 = (7, 3) ∧
    classify_exposure none 0 = Period.night := by
  have h := C2_exposure_total_with_night_fallback
    (fun p => if p = Period.night then ((7 : Int), (3 : Int)) else (0, 0))
    none 0
  refine ⟨?_, h.2.1 rfl⟩
  rw [h.1]
  simp [h.2.1 rfl]

/-- C3: for every strictly monotonic boundary set (all eight instants
present and increasing), classifying the exact sunrise instant yields Day
and classifying the exact sunset instant yields Civil: the boundary
tie-break is start-inclusive toward the lighter period. -/
theorem C3_boundary_tie_break
    (ad nd cd sr ss cdk ndk adk : Int)
    (h1 : ad < nd) (h2 : nd < cd) (h3 : cd < sr) (h4 : sr < ss)
    (h5 : ss < cdk) (h6 : cdk < ndk) (h7 : ndk < adk) :
    classify_exposure
      (some ⟨some ad, some nd, some cd, some sr, some ss, some cdk, some ndk, some adk⟩)
      sr = Period.day ∧
    classify_exposure
      (some ⟨some ad, some nd, some cd, some sr, some ss, some cdk, some ndk, some adk⟩)
      ss = Period.civil := by
  constructor
  · simp only [classify_exposure, time_periods, run_time_periods, condNight,
      condAstronomical, condNautical, condCivil, condDay, chainLeLt, orSC,
      Option.some_bind, Option.map_some']
    simp [show ¬ (sr < ad) from by omega, show ¬ (adk ≤ sr) from by omega,
      show ad ≤ sr from by omega, show ¬ (sr < nd) from by omega,
      show ¬ (ndk ≤ sr) from by omega, show nd ≤ sr from by omega,
      show ¬ (sr < cd) from by omega, show ¬ (cdk ≤ sr) from by omega,
      show cd ≤ sr from by omega, show ¬ (sr < sr) from by omega,
      show ¬ (ss ≤ sr) from by omega, show sr ≤ sr from by omega,
      show sr < ss from by omega]
  · simp only [classify_exposure, time_periods, run_time_periods, condNight,
      condAstronomical, condNautical, condCivil, condDay, chainLeLt, orSC,
      Option.some_bind, Option.map_some']
    simp [show ¬ (ss < ad) from by omega, show ¬ (adk ≤ ss) from by omega,
      show ad ≤ ss from by omega, show ¬ (ss < nd) from by omega,
      show ¬ (ndk ≤ ss) from by omega, show nd ≤ ss from by omega,
      show ¬ (ss < cd) from by omega, show ¬ (cdk ≤ ss) from by omega,
      show cd ≤ ss from by omega, show ¬ (ss < sr) from by omega,
      show ss ≤ ss from by omega, show ss < cdk from by omega]

/-- Witness for C3 at the concrete strictly monotonic boundary set
0 < 10 < 20 < 30 < 40 < 50 < 60 < 70. -/
theorem C3_boundary_tie_break_witness :
    classify_exposure
      (some ⟨some 0, some 10, some 20, some 30, some 40, some 50, some 60, some 70⟩)
      30 = Period.day ∧
    classify_exposure
      (some ⟨some 0, some 10, some 20, some 30, some 40, some 50, some 60, some 70⟩)
      40 = Period.civil :=
  C3_boundary_tie_break 0 10 20 30 40 50 60 70 (by decide) (by decide)
    (by decide) (by decide) (by decide) (by decide) (by decide)

/-- C5 counterexample: ties on capture time are NOT broken by path
lexical order. With two files of equal mtime enumerated as
["b.jpg", "a.jpg"] and ceiling 1, the plan evicts "b.jpg" (the
first-listed), although "a.jpg" is lexically smaller and the claimed
lexical tie-break would select it. -/
theorem C5_tie_break_counterexample :
    cleanup_old_files [⟨"b.jpg", 0⟩, ⟨"a.jpg", 0⟩] 1 false =
      [(⟨"b.jpg", 0⟩, Action.delete)] ∧
    "a.jpg".data < "b.jpg".data := by
  have hs : ([⟨"b.jpg", 0⟩, ⟨"a.jpg", 0⟩] : List FileRec).mergeSort mtimeLe =
      [⟨"b.jpg", 0⟩, ⟨"a.jpg", 0⟩] :=
    List.mergeSort_of_sorted (by decide)
  constructor
  · simp [cleanup_old_files, hs]
  · decide

/-- C5 (amended): eviction planning selects exactly the excess oldest
entries, with ties on capture time broken by the enumeration order of the
file listing (the sort is stable), not by path lexical order. In detail:
(a) when the listing fits under the ceiling the plan is empty; (b)
otherwise exactly length − ceiling files are selected, every selected file
is at least as old as every kept file, each selection is annotated Archive
when archival is enabled and Delete otherwise, and re-running the plan on
the kept files yields an empty plan; (c) when the listing is already
non-decreasing by mtime (ties in any order), the plan takes exactly the
first length − ceiling files in listing order. -/
theorem C5_eviction_plan (files : List FileRec) (n : Nat) (b : Bool) :
    (files.length ≤ n → cleanup_old_files files n b = []) ∧
    (n < files.length →
      (cleanup_old_files files n b).length = files.length - n ∧
      (∀ p ∈ cleanup_old_files files n b,
        ∀ q ∈ (files.mergeSort mtimeLe).drop (files.length - n),
          p.1.mtime ≤ q.mtime) ∧
      (∀ p ∈ cleanup_old_files files n b,
        p.2 = if b then Action.archive else Action.delete) ∧
      cleanup_old_files ((files.mergeSort mtimeLe).drop (files.length - n))
        n b = []) ∧
    (files.Pairwise (fun f g => mtimeLe f g) → n < files.length →
      cleanup_old_files files n b =
        (files.take (files.length - n)).map
          (fun f => (f, if b then Action.archive else Action.delete))) := by
  have hlen : (files.mergeSort mtimeLe).length = files.length :=
    List.length_mergeSort files
  refine ⟨?_, ?_, ?_⟩
  · intro hle
    simp [cleanup_old_files, hle]
  · intro hlt
    have hneg : ¬ files.length ≤ n := by omega
    have hsorted : (files.mergeSort mtimeLe).Pairwise
        (fun f g => mtimeLe f g) :=
      List.sorted_mergeSort mtimeLe_trans mtimeLe_total files
    refine ⟨?_, ?_, ?_, ?_⟩
    · simp only [cleanup_old_files, if_neg hneg, List.length_map,
        List.length_take, hlen]
      omega
    · intro p hp q hq
      simp only [cleanup_old_files, if_neg hneg, List.mem_map] at hp
      obtain ⟨f, hf, rfl⟩ := hp
      have hpair : ∀ a ∈ (files.mergeSort mtimeLe).take (files.length - n),
          ∀ c ∈ (files.mergeSort mtimeLe).drop (files.length - n),
            mtimeLe a c := by
        have h2 := hsorted
        rw [← List.take_append_drop (files.length - n)
          (files.mergeSort mtimeLe)] at h2
        exact fun a ha c hc => (List.pairwise_append.mp h2).2.2 a ha c hc
      have := hpair f hf q hq
      simpa [mtimeLe] using this
    · intro p hp
      simp only [cleanup_old_files, if_neg hneg, List.mem_map] at hp
      obtain ⟨f, hf, rfl⟩ := hp
      rfl
    · have hkept : ((files.mergeSort mtimeLe).drop (files.length - n)).length
          = n := by
        simp [hlen]
        omega
      simp [cleanup_old_files, hkept]
  · intro hpw hlt
    have hs : files.mergeSort mtimeLe = files :=
      List.mergeSort_of_sorted hpw
    simp only [cleanup_old_files, if_neg (by omega : ¬ files.length ≤ n), hs]

/-- Witness for C5 (amended) on a concrete listing with a capture-time
tie: ceiling hypotheses and the sortedness hypothesis are discharged on
the listing [("a", 1), ("b", 1), ("c", 2)]. -/
theorem C5_eviction_plan_witness :
    cleanup_old_files [⟨"a", 1⟩, ⟨"b", 1⟩, ⟨"c", 2⟩] 3 true = [] ∧
    (cleanup_old_files [⟨"a", 1⟩, ⟨"b", 1⟩, ⟨"c", 2⟩] 1 true).length = 2 ∧
    cleanup_old_files [⟨"a", 1⟩, ⟨"b", 1⟩, ⟨"c", 2⟩] 1 true =
      [(⟨"a", 1⟩, Action.archive), (⟨"b", 1⟩, Action.archive)] := by
  have h3 := C5_eviction_plan [⟨"a", 1⟩, ⟨"b", 1⟩, ⟨"c", 2⟩] 3 true
  have h1 := C5_eviction_plan [⟨"a", 1⟩, ⟨"b", 1⟩, ⟨"c", 2⟩] 1 true
  refine ⟨h3.1 (by decide), (h1.2.1 (by decide)).1, ?_⟩
  have hc := h1.2.2 (by decide) (by decide)
  exact hc.trans rfl

/-- C6: capture-gate hour window. With night_only set and weather_check
unset, the gate approves exactly when the local hour h satisfies h ≥ 18 or
h ≤ 6 (13 inclusive hours); with neither flag set it always approves. -/
theorem C6_capture_gate_window (h : Nat) :
    (should_capture true false (Except.ok h) = true ↔ (18 ≤ h ∨ h ≤ 6)) ∧
    should_capture false false (Except.ok h) = true := by
  constructor
  · simp only [should_capture, should_capture_checks, Bool.true_and]
    by_cases h18 : 18 ≤ h <;> by_cases h6 : h ≤ 6 <;> simp [h18, h6]
  · rfl

/-- C10: the capture gate fails open: whenever the gated body raises, the
except handler of _should_capture returns True and the capture proceeds,
for any flag combination. -/
theorem C10_gate_fails_open (night_only weather_check : Bool) (e : String) :
    should_capture night_only weather_check (Except.error e) = true := rfl

/-- A lookup always finds the just-inserted entry. -/
theorem dictInsert_lookup {W : Type} (l : List (String × W)) (key : String)
    (v : W) : (dictInsert l key v).lookup key = some v := by
  induction l with
  | nil => simp [dictInsert]
  | cons p rest ih =>
    obtain ⟨k, w⟩ := p
    by_cases hk : k = key
    · subst hk
      simp [dictInsert, List.lookup]
    · have hbeq : (key == k) = false := by
        simp only [beq_eq_false_iff_ne]
        exact fun heq => hk heq.symm
      simp [dictInsert, hk, List.lookup, hbeq, ih]

/-- A successful lookup implies the cache dict is nonempty. -/
theorem lookup_some_nonempty {W : Type} (l : List (String × W)) (key : String)
    (w : W) (hl : l.lookup key = some w) : l.isEmpty = false := by
  cases l with
  | nil => simp [List.lookup] at hl
  | cons p rest => rfl

/-- C7: weather-cache TTL semantics. (1) A lookup strictly less than the
configured duration after the last update whose key is cached returns the
cached value with no provider fetch and the state unchanged. (2) Age at
least the duration since the last update makes the cache invalid, as does
(3) an empty cache. (4) An invalid cache triggers exactly one provider
fetch whose successful value replaces the cached entry and sets the update
time to now. -/
theorem C7_weather_ttl {W : Type} (fetch : Unit → Except String W)
    (default_data : W) (d : Int) (st : WeatherState W) (now lu : Int)
    (key : String) (w wfresh : W) :
    (st.last_update = some lu → now - lu < d → st.cache.lookup key = some w →
      get_weather_data fetch default_data d st now key = (w, st, 0)) ∧
    (st.last_update = some lu → d ≤ now - lu →
      is_cache_valid st now d = false) ∧
    (st.cache.isEmpty = true → is_cache_valid st now d = false) ∧
    (is_cache_valid st now d = false → fetch () = Except.ok wfresh →
      get_weather_data fetch default_data d st now key =
        (wfresh, ⟨dictInsert st.cache key wfresh, some now⟩, 1) ∧
      (dictInsert st.cache key wfresh).lookup key = some wfresh) := by
  refine ⟨?_, ?_, ?_, ?_⟩
  · intro hlu hfresh hkey
    have hne : st.cache.isEmpty = false := lookup_some_nonempty _ _ _ hkey
    have hvalid : is_cache_valid st now d = true := by
      simp [is_cache_valid, hlu, hne, hfresh]
    simp [get_weather_data, hvalid, hkey]
  · intro hlu hstale
    simp [is_cache_valid, hlu]
    intro _
    omega
  · intro hemp
    simp [is_cache_valid, hemp]
    cases st.last_update <;> simp
  · intro hinvalid hfetch
    refine ⟨?_, dictInsert_lookup _ _ _⟩
    simp [get_weather_data, hinvalid, hfetch]

/-- Witness for C7 on a concrete cache: a fresh hit at age 100 of 300
returns the cached value without fetching; at age 300 the cache is
invalid and one successful fetch replaces the entry. -/
theorem C7_weather_ttl_witness :
    get_weather_data (fun _ => Except.ok 7) 0 300
      (⟨[("31.0,121.0", 5)], some 100⟩ : WeatherState Nat) 200 "31.0,121.0" =
      (5, ⟨[("31.0,121.0", 5)], some 100⟩, 0) ∧
    is_cache_valid (⟨[("31.0,121.0", 5)], some 100⟩ : WeatherState Nat)
      400 300 = false ∧
    get_weather_data (fun _ => Except.ok 7) 0 300
      (⟨[("31.0,121.0", 5)], some 100⟩ : WeatherState Nat) 400 "31.0,121.0" =
      (7, ⟨[("31.0,121.0", 7)], some 400⟩, 1) := by
  have h1 := C7_weather_ttl (W := Nat) (fun _ => Except.ok 7) 0 300
    ⟨[("31.0,121.0", 5)], some 100⟩ 200 100 "31.0,121.0" 5 7
  have h2 := C7_weather_ttl (W := Nat) (fun _ => Except.ok 7) 0 300
    ⟨[("31.0,121.0", 5)], some 100⟩ 400 100 "31.0,121.0" 5 7
  have hstale : is_cache_valid (⟨[("31.0,121.0", 5)], some 100⟩ :
      WeatherState Nat) 400 300 = false := h2.2.1 rfl (by decide)
  refine ⟨h1.1 rfl (by decide) (by decide), hstale, ?_⟩
  have h4 := (h2.2.2.2 hstale rfl).1
  simpa [dictInsert] using h4

/-- C9: restart reconciliation of the metadata index. Loading a
well-formed persisted index keeps exactly the records whose backing file
still exists (membership characterization), and any parse failure yields
the empty index; the embedded load function is total, so it never raises
to its caller. -/
theorem C9_load_metadata_reconciles (data : List (String × MetaRec))
    (file_exists : String → Bool) :
    load_metadata true (Except.ok data) file_exists =
      data.filter (fun r => file_exists r.1) ∧
    (∀ r, r ∈ load_metadata true (Except.ok data) file_exists ↔
      r ∈ data ∧ file_exists r.1 = true) ∧
    (∀ ie e, load_metadata ie (Except.error e) file_exists = []) := by
  refine ⟨rfl, ?_, ?_⟩
  · intro r
    simp [load_metadata, List.mem_filter]
  · intro ie e
    cases ie <;> rfl

/-- Invocation-count bound of the retry loop from any start attempt. -/
theorem retryAux_count_le {E A : Type} (op : Nat → Except E A) (d : ℚ)
    (e : Bool) : ∀ (r a : Nat), (retryAux op d e a r).2.1 ≤ r + 1 := by
  intro r
  induction r with
  | zero =>
    intro a
    cases hop : op a <;> simp [retryAux, hop]
  | succ r ih =>
    intro a
    cases hop : op a with
    | ok v => simp [retryAux, hop]
    | error err =>
      rw [retryAux.eq_def]
      simp only []
      rw [hop]
      simp only []
      have hr := ih (a + 1)
      omega

/-- Behavior of the retry loop when the first success is the k-th attempt
after the start attempt a (exponential backoff): the success value is
returned after k + 1 invocations with the geometric delays in between. -/
theorem retryAux_first_success {E A : Type} (op : Nat → Except E A)
    (d : ℚ) :
    ∀ (k r a : Nat), k ≤ r →
      (∀ j, a ≤ j → j < a + k → ∃ err, op j = Except.error err) →
      (∃ v, op (a + k) = Except.ok v) →
      retryAux op d true a r =
        (op (a + k), k + 1, (List.range' a k).map (fun j => d * 2 ^ j)) := by
  intro k
  induction k with
  | zero =>
    intro r a _ _ hok
    obtain ⟨v, hv⟩ := hok
    rw [Nat.add_zero] at hv
    cases r <;> simp [retryAux, hv]
  | succ k ih =>
    intro r a hkr hfail hok
    obtain ⟨err, herr⟩ := hfail a (Nat.le_refl a) (by omega)
    cases r with
    | zero => omega
    | succ r =>
      have hsh : a + 1 + k = a + (k + 1) := by omega
      have hrec := ih r (a + 1) (by omega)
        (fun j hj1 hj2 => hfail j (by omega) (by omega))
        (by rw [hsh]; exact hok)
      rw [retryAux.eq_def]
      simp only []
      rw [herr]
      simp only []
      rw [hrec, hsh]
      have hrange : List.range' a (k + 1) = a :: List.range' (a + 1) k := rfl
      rw [hrange, List.map_cons]
      simp

/-- Behavior of the retry loop when every attempt fails: the loop makes
all r + 1 invocations, sleeps the geometric delays in between, and ends
with the last failure. -/
theorem retryAux_all_fail {E A : Type} (op : Nat → Except E A) (d : ℚ) :
    ∀ (r a : Nat),
      (∀ j, a ≤ j → j ≤ a + r → ∃ err, op j = Except.error err) →
      retryAux op d true a r =
        (op (a + r), r + 1, (List.range' a r).map (fun j => d * 2 ^ j)) := by
  intro r
  induction r with
  | zero =>
    intro a hfail
    obtain ⟨err, herr⟩ := hfail a (Nat.le_refl a) (by omega)
    rw [Nat.add_zero]
    simp [retryAux, herr]
  | succ r ih =>
    intro a hfail
    obtain ⟨err, herr⟩ := hfail a (Nat.le_refl a) (by omega)
    have hsh : a + 1 + r = a + (r + 1) := by omega
    have hrec := ih (a + 1) (fun j hj1 hj2 => hfail j (by omega) (by omega))
    rw [retryAux.eq_def]
    simp only []
    rw [herr]
    simp only []
    rw [hrec, hsh]
    have hrange : List.range' a (r + 1) = a :: List.range' (a + 1) r := rfl
    rw [hrange, List.map_cons]
    simp

/-- C8: retry semantics with exponential backoff. The wrapper invokes the
operation at most max_retries + 1 times; if the first success is attempt
k (0-based, within the budget) it stops there, returns that result after
exactly k + 1 invocations, and the delays slept between consecutive
attempts are delay * 2^0, ..., delay * 2^(k-1); if every attempt fails it
re-raises the last failure after max_retries + 1 invocations. -/
theorem C8_retry_semantics {E A : Type} (op : Nat → Except E A)
    (max_retries : Nat) (delay : ℚ) :
    (retry_on_failure op max_retries delay true).2.1 ≤ max_retries + 1 ∧
    (∀ k, k ≤ max_retries →
      (∀ j, j < k → ∃ err, op j = Except.error err) →
      (∃ v, op k = Except.ok v) →
      retry_on_failure op max_retries delay true =
        (op k, k + 1, (List.range k).map (fun j => delay * 2 ^ j))) ∧
    ((∀ j, j ≤ max_retries → ∃ err, op j = Except.error err) →
      retry_on_failure op max_retries delay true =
        (op max_retries, max_retries + 1,
          (List.range max_retries).map (fun j => delay * 2 ^ j))) := by
  refine ⟨retryAux_count_le op delay true max_retries 0, ?_, ?_⟩
  · intro k hk hfail hok
    have h := retryAux_first_success op delay k max_retries 0 hk
      (fun j _ hj2 => hfail j (by omega)) (by simpa using hok)
    show retryAux op delay true 0 max_retries = _
    rw [h, List.range_eq_range']
    rw [Nat.zero_add]
  · intro hfail
    have h := retryAux_all_fail op delay max_retries 0
      (fun j _ hj2 => hfail j (by omega))
    show retryAux op delay true 0 max_retries = _
    rw [h, List.range_eq_range']
    rw [Nat.zero_add]

/-- Witness for C8 on the spec's own example: an operation failing twice
then succeeding, under max_retries = 3 and delay = 0.5 with exponential
backoff, is invoked exactly 3 times, returns the success, and the slept
delays are 0.5 then 1.0 seconds. -/
theorem C8_retry_semantics_witness :
    retry_on_failure
      (fun k => if k < 2 then Except.error "boom" else Except.ok 42)
      3 (1 / 2 : ℚ) true = (Except.ok 42, 3, [1 / 2, 1]) := by
  have h := (C8_retry_semantics
    (fun k => if k < 2 then Except.error "boom" else Except.ok 42) 3
    (1 / 2 : ℚ)).2.1 2 (by omega)
    (fun j hj => ⟨"boom", by simp [hj]⟩)
    ⟨42, by norm_num⟩
  rw [h]
  have hr2 : List.range 2 = [0, 1] := rfl
  rw [hr2]
  norm_num

end Allsky
